import Mathlib

/-!
Shallow embedding of `crawler.py` (google-maps-recursive-search).

The program tiles a geographic area into h3 hexagons (`get_hex_centers`),
issues one fully-drained paginated places query per unvisited tile
(`get_places`), merges results into a dict keyed by `place_id`
(first-seen wins), recurses into a tile at resolution+1 when the fetch
returns exactly 60 entities (the provider cap), and marks the tile
visited afterwards (`search_radius`).  The `__main__` block loads both
snapshots, geocodes, runs the crawl under try/except/finally and flushes
both snapshots in the `finally` block (`main_run`, `flush_ops`).

Modelling choices:
* latitudes/longitudes and h3 cell ids are abstract types with decidable
  equality (no claim depends on float arithmetic on coordinates; tile
  identity in the source is exact tuple equality, matched here);
* the resolution table holds the exact decimal values of the source as
  rationals; `math.floor` / `math.ceil` become `Int.floor` / `Int.ceil`;
* the external h3 library is a record of its three functions used by the
  source together with its documented behaviour `grid_disk c 0 = [c]`;
* the Google client is an oracle `places_pages` giving, per
  (lat, lng, radius) query, the finite sequence of pages the pagination
  loop of `get_places` drains; a python `KeyError` on the resolution
  table becomes `Except.error`, carrying the state at the raise site
  (python exceptions do not roll back mutations of the dict/set);
* an event trace (`Event`) records, in execution order, each completed
  `get_places` call, each entry into `search_radius`, and each
  `seen_locations.add`, to state the temporal claims.
-/

/-- Observable events of one crawl run, in execution order. -/
inductive Event (F : Type) where
  /-- a completed `get_places(client, lat, lng, radius)` call (all pages drained) -/
  | fetch (lat lng : F) (radius : ℤ)
  /-- entry into `search_radius(lat, lng, res, radius, ...)` -/
  | beginSearch (lat lng : F) (res : ℤ) (radius : ℤ)
  /-- the call `seen_locations.add((lat, lng))` -/
  | mark (lat lng : F)
deriving DecidableEq

/-- The mutable state threaded through `search_radius`: the entity dict
`dict_storage` (insertion-ordered association list, as a python dict),
the visited set `seen_locations`, and the instrumentation trace. -/
structure SState (F PId Pl : Type) where
  dict_storage : List (PId × Pl)
  seen_locations : List (F × F)
  trace : List (Event F)
deriving DecidableEq

/-- The h3 library functions the source uses, with the documented
behaviour of `grid_disk` at `k = 0` (the cell itself). -/
structure H3Lib (F Cell : Type) where
  latlng_to_cell : F → F → ℤ → Cell
  grid_disk : Cell → ℤ → List Cell
  cell_to_latlng : Cell → F × F
  grid_disk_zero : ∀ c, grid_disk c 0 = [c]

/-- External collaborators of the crawl: the h3 library, the stable
identifier of a place record, and the places provider, given as the
pages the pagination loop of `get_places` drains for one query. -/
structure Env (F Cell Pl PId : Type) where
  h3 : H3Lib F Cell
  place_id : Pl → PId
  places_pages : F → F → ℤ → List (List Pl)

/-- Table `h3_resolution_to_edge_length_in_meters` of the source (entries 12-15
are commented out there). -/
def h3_resolution_to_edge_length_in_meters : List (ℤ × ℚ) :=
  [(7, 5161.2), (8, 461.354), (9, 174.375), (10, 65.907), (11, 24.910)]

/-- Message of the python `KeyError` raised by an unsupported-resolution
dict lookup. -/
def keyError (r : ℤ) : String := "KeyError: " ++ toString r

section Crawler

variable {F Cell Pl PId : Type} [DecidableEq F] [DecidableEq PId]

/-- Model of `get_hex_centers(lat, lng, distance_meters, h_resolution)`: floor the
hop count, take the h3 disk around the origin cell, return the centroids
(together with the hop count, which the source reports in its
diagnostic print).  An unsupported resolution raises `KeyError`. -/
def get_hex_centers (env : Env F Cell Pl PId) (lat lng : F)
    (distance_meters : ℤ) (h_resolution : ℤ) :
    Except String (List (F × F) × ℤ) :=
  match List.lookup h_resolution h3_resolution_to_edge_length_in_meters with
  | none => .error (keyError h_resolution)
  | some edge =>
    let k_distance : ℤ := ⌊(distance_meters : ℚ) / edge⌋
    let hex_origin := env.h3.latlng_to_cell lat lng h_resolution
    let hexes := env.h3.grid_disk hex_origin k_distance
    let hex_centroids := hexes.map env.h3.cell_to_latlng
    .ok (hex_centroids, k_distance)

/-- Model of `get_places(client, lat, lng, radius_m)`: the pagination loop extends
`places` with each page until no continuation token remains; the drained
result is the concatenation of all pages of the query. -/
def get_places (env : Env F Cell Pl PId) (lat lng : F) (radius_m : ℤ) :
    List Pl :=
  (env.places_pages lat lng radius_m).flatten

/-- Lines 135-142: merge fetched places into `dict_storage`; an entity
whose `place_id` is already a key is skipped (logged), not overwritten. -/
def mergePlaces (place_id : Pl → PId) (dict_storage : List (PId × Pl))
    (places_found : List Pl) : List (PId × Pl) :=
  places_found.foldl
    (fun st p =>
      if (List.lookup (place_id p) st).isSome then st
      else st ++ [(place_id p, p)])
    dict_storage

/-- python `set.add`: insert the coordinate if absent. -/
def addSeen (seen : List (F × F)) (c : F × F) : List (F × F) :=
  if c ∈ seen then seen else seen ++ [c]

/-- Record entry into `search_radius` in the trace. -/
def pushBegin (st : SState F PId Pl) (lat lng : F) (res radius : ℤ) :
    SState F PId Pl :=
  { st with trace := st.trace ++ [Event.beginSearch lat lng res radius] }

/-- State after line 134-142 for one tile: the completed `get_places`
call is recorded and its results are merged into `dict_storage`. -/
def afterFetch (env : Env F Cell Pl PId) (st : SState F PId Pl)
    (hex_lat hex_lng : F) (hex_radius : ℤ) : SState F PId Pl :=
  { st with
    dict_storage :=
      mergePlaces env.place_id st.dict_storage
        (get_places env hex_lat hex_lng hex_radius),
    trace := st.trace ++ [Event.fetch hex_lat hex_lng hex_radius] }

/-- Line 158: `seen_locations.add((hex_lat, hex_lng))`. -/
def markSeen (st : SState F PId Pl) (hex_lat hex_lng : F) :
    SState F PId Pl :=
  { st with
    seen_locations := addSeen st.seen_locations (hex_lat, hex_lng),
    trace := st.trace ++ [Event.mark hex_lat hex_lng] }

/-- Every resolution with an edge-length entry is at most 11, the finest
defined level (used for the termination measure of `search_radius`). -/
def le11_of_lookup {r : ℤ} {e : ℚ}
    (h : List.lookup r h3_resolution_to_edge_length_in_meters = some e) :
    r ≤ 11 := by
  simp only [h3_resolution_to_edge_length_in_meters, List.lookup] at h
  repeat' split at h
  all_goals simp_all [beq_iff_eq]

mutual

/-- Model of `search_radius(search_lat, search_long, h_resolution, radius_m,
dict_storage, seen_locations)` (lines 115-158).  Computes the per-tile
query radius `hex_radius = ceil(edge_length)` (a `KeyError` past the
table propagates), obtains the tile centers, and runs the tile loop. -/
def search_radius (env : Env F Cell Pl PId) (search_lat search_long : F)
    (h_resolution : ℤ) (radius_m : ℤ) (st : SState F PId Pl) :
    Except (String × SState F PId Pl) (SState F PId Pl) :=
  let st0 := pushBegin st search_lat search_long h_resolution radius_m
  match hl :
      List.lookup h_resolution h3_resolution_to_edge_length_in_meters with
  | none => .error (keyError h_resolution, st0)
  | some edge =>
    match get_hex_centers env search_lat search_long radius_m h_resolution with
    | .error msg => .error (msg, st0)
    | .ok (hex_coords, _) =>
      processTiles env h_resolution ⌈edge⌉ (le11_of_lookup hl) hex_coords st0
termination_by ((12 - h_resolution).toNat, 1, 0)

/-- The `for` loop of `search_radius` (lines 128-158): skip a seen tile;
otherwise drain `get_places`, merge, recurse at `h_resolution + 1` when
exactly 60 entities came back, and only then mark the tile seen.  The
proof argument `hle` (from the table lookup of the caller) bounds the
recursion; it carries no data. -/
def processTiles (env : Env F Cell Pl PId) (h_resolution hex_radius : ℤ)
    (hle : h_resolution ≤ 11) (tiles : List (F × F)) (st : SState F PId Pl) :
    Except (String × SState F PId Pl) (SState F PId Pl) :=
  match tiles with
  | [] => .ok st
  | (hex_lat, hex_lng) :: rest =>
    if (hex_lat, hex_lng) ∈ st.seen_locations then
      processTiles env h_resolution hex_radius hle rest st
    else
      let places_found := get_places env hex_lat hex_lng hex_radius
      let st1 := afterFetch env st hex_lat hex_lng hex_radius
      if places_found.length = 60 then
        match search_radius env hex_lat hex_lng (h_resolution + 1)
            hex_radius st1 with
        | .error e => .error e
        | .ok st2 =>
          processTiles env h_resolution hex_radius hle rest
            (markSeen st2 hex_lat hex_lng)
      else
        processTiles env h_resolution hex_radius hle rest
          (markSeen st1 hex_lat hex_lng)
termination_by ((12 - h_resolution).toNat, 0, tiles.length)

end

/-- The state a run leaves behind, whether it returned or raised
(python exceptions do not undo mutations of the dict/set). -/
def stateOf : Except (String × SState F PId Pl) (SState F PId Pl) →
    SState F PId Pl
  | .ok s => s
  | .error (_, s) => s

/-- The ordered tile centers the tiler emits for one `search_radius`
call (empty when the tiler raises). -/
def emittedTiles (env : Env F Cell Pl PId) (lat lng : F)
    (radius_m h_resolution : ℤ) : List (F × F) :=
  match get_hex_centers env lat lng radius_m h_resolution with
  | .ok (cs, _) => cs
  | .error _ => []

/-- Model of `geocode(gclient, zipcode)` (lines 84-91): the provider's geocoding
answer for the zipcode is the oracle; an empty result raises. -/
def geocode (geocode_result : Option (F × F)) : Except String (F × F) :=
  match geocode_result with
  | none => .error "Invalid ZIP code."
  | some loc => .ok loc

/-- Every `mark` event of a trace segment is preceded, within the
segment, by a completed fetch of the same tile center. -/
def marks_fetched (Δ : List (Event F)) : Prop :=
  ∀ l₁ (la ln : F) l₂, Δ = l₁ ++ Event.mark la ln :: l₂ →
    ∃ r, Event.fetch la ln r ∈ l₁

/-- Every `beginSearch` event of the segment is at resolution `≤ b`. -/
def begins_le (b : ℤ) (Δ : List (Event F)) : Prop :=
  ∀ (la ln : F) (r' rad : ℤ), Event.beginSearch la ln r' rad ∈ Δ → r' ≤ b

/-- Every `beginSearch` event of the segment is at the entry resolution
or at a resolution at most 12 (one past the finest table entry, where
the run dies with a `KeyError`). -/
def begins_bounded (res : ℤ) (Δ : List (Event F)) : Prop :=
  ∀ (la ln : F) (r' rad : ℤ), Event.beginSearch la ln r' rad ∈ Δ →
    r' = res ∨ r' ≤ 12

/-- The visited set after a segment is the visited set before it plus
exactly the coordinates whose `mark` event the segment holds. -/
def seen_from (s0 s1 : List (F × F)) (Δ : List (Event F)) : Prop :=
  ∀ c : F × F, c ∈ s1 ↔ c ∈ s0 ∨ Event.mark c.1 c.2 ∈ Δ

end Crawler

/-- The file-system writes the `__main__` block can perform.  The
program only ever opens a file for writing (python `Path.open("w")`,
which truncates the destination in place) and dumps JSON into it; a
rename/replace operation is representable but never emitted. -/
inductive FsOp where
  /-- the call `path.open("w")`: truncate-and-open the file at this path -/
  | openTruncate (path : String)
  /-- the call `json.dump(place_store, fh)` into the open handle at this path -/
  | dumpStorage (path : String)
  /-- the call `json.dump(list(crawled_store), fh)` into the handle at this path -/
  | dumpCoords (path : String)
  /-- an atomic rename of a temporary file over the destination -/
  | renameFile (src dst : String)
deriving DecidableEq

/-- Whether a write operation is a rename/replace. -/
def FsOp.isRename : FsOp → Bool
  | .renameFile _ _ => true
  | _ => false

/-- The `finally` block (lines 209-218): reopen both snapshot files at
their final paths with mode `"w"` and dump the whole state into them —
no temporary location, no rename. -/
def flush_ops (filename_meta : String) : List FsOp :=
  [FsOp.openTruncate ("places_storage_" ++ filename_meta ++ ".json"),
   FsOp.dumpStorage ("places_storage_" ++ filename_meta ++ ".json"),
   FsOp.openTruncate ("coord_history_" ++ filename_meta ++ ".json"),
   FsOp.dumpCoords ("coord_history_" ++ filename_meta ++ ".json")]

section Main

variable {F Cell Pl PId : Type} [DecidableEq F] [DecidableEq PId]

/-- The `__main__` block from the geocode call on (lines 195-218):
`geocode` runs *before* the `try`; inside the `try`, `search_radius`
either completes, is cut short by a `KeyboardInterrupt` (the
`interrupted` oracle; caught, then the run ends normally), or raises a
fatal error (re-raised after `finally`, nonzero exit).  The `finally`
block flushes both snapshots on every path that reaches the `try`.
Result: the write operations performed, and the process exit code. -/
def main_run (env : Env F Cell Pl PId) (geocode_result : Option (F × F))
    (interrupted : Bool) (start_resolution search_radius_m : ℤ)
    (place_store : List (PId × Pl)) (crawled_store : List (F × F))
    (filename_meta : String) : List FsOp × ℤ :=
  match geocode geocode_result with
  | .error _ => ([], 1)
  | .ok (zip_lat, zip_lng) =>
    if interrupted then (flush_ops filename_meta, 0)
    else
      match search_radius env zip_lat zip_lng start_resolution
          search_radius_m ⟨place_store, crawled_store, []⟩ with
      | .ok _ => (flush_ops filename_meta, 0)
      | .error _ => (flush_ops filename_meta, 1)

end Main

/-! Concrete instantiations (all abstract types set to `ℤ`) used to
exercise the theorems on explicit inputs. -/

/-- A concrete h3 stand-in: the cell of a coordinate is its latitude,
a disk is the single origin cell, and a cell's centroid is the diagonal
pair.  `grid_disk c 0 = [c]` holds definitionally. -/
def idH3 : H3Lib ℤ ℤ where
  latlng_to_cell lat _ _ := lat
  grid_disk c _ := [c]
  cell_to_latlng c := (c, c)
  grid_disk_zero _ := rfl

/-- A provider that never returns any page. -/
def emptyEnv : Env ℤ ℤ ℤ ℤ :=
  { h3 := idH3, place_id := fun p => p, places_pages := fun _ _ _ => [] }

/-- A provider that returns exactly 60 entities (the cap) for a query of
radius 462 — the hex radius of resolution 8 — and nothing otherwise, so
a resolution-8 tile saturates and its resolution-9 refinement does not. -/
def satEnv : Env ℤ ℤ ℤ ℤ :=
  { h3 := idH3, place_id := fun p => p,
    places_pages := fun _ _ r =>
      if r = 462 then [(List.range 60).map Int.ofNat] else [] }

section TraceLemmas

variable {F : Type}

theorem mem_addSeen [DecidableEq F] (seen : List (F × F)) (c c' : F × F) :
    c' ∈ addSeen seen c ↔ c' ∈ seen ∨ c' = c := by
  unfold addSeen
  split
  · constructor
    · exact fun h => Or.inl h
    · rintro (h | rfl)
      · exact h
      · assumption
  · simp

theorem marks_fetched_nil : marks_fetched (F := F) [] := by
  intro l₁ la ln l₂ h
  exact absurd h (by simp)

theorem marks_fetched_cons (e : Event F)
    (he : ∀ la ln, e ≠ Event.mark la ln)
    {Δ : List (Event F)} (h : marks_fetched Δ) : marks_fetched (e :: Δ) := by
  intro l₁ la ln l₂ heq
  cases l₁ with
  | nil =>
    simp only [List.nil_append, List.cons.injEq] at heq
    exact absurd heq.1 (he la ln)
  | cons x l₁' =>
    simp only [List.cons_append, List.cons.injEq] at heq
    obtain ⟨rfl, hΔ⟩ := heq
    obtain ⟨r, hr⟩ := h l₁' la ln l₂ hΔ
    exact ⟨r, List.mem_cons_of_mem _ hr⟩

theorem marks_fetched_tile (la ln : F) (r : ℤ) (Δmid Δrest : List (Event F))
    (h1 : marks_fetched Δmid) (h2 : marks_fetched Δrest) :
    marks_fetched
      (Event.fetch la ln r :: Δmid ++ Event.mark la ln :: Δrest) := by
  intro l₁ la' ln' l₂ heq
  cases l₁ with
  | nil => simp at heq
  | cons x l₁' =>
    simp only [List.cons_append, List.cons.injEq] at heq
    obtain ⟨rfl, hmid⟩ := heq
    rcases List.append_eq_append_iff.mp hmid with ⟨a', ha1, ha2⟩ | ⟨c', hc1, hc2⟩
    · cases a' with
      | nil =>
        simp only [List.nil_append, List.cons.injEq, Event.mark.injEq] at ha2
        obtain ⟨⟨rfl, rfl⟩, _⟩ := ha2
        exact ⟨r, List.mem_cons_self _ _⟩
      | cons y a'' =>
        simp only [List.cons_append, List.cons.injEq] at ha2
        obtain ⟨rfl, hrest⟩ := ha2
        obtain ⟨rr, hrr⟩ := h2 a'' la' ln' l₂ hrest
        refine ⟨rr, List.mem_cons_of_mem _ ?_⟩
        rw [ha1]
        exact List.mem_append_right _ (List.mem_cons_of_mem _ hrr)
    · cases c' with
      | nil =>
        simp only [List.nil_append, List.cons.injEq, Event.mark.injEq] at hc2
        obtain ⟨⟨rfl, rfl⟩, _⟩ := hc2
        exact ⟨r, List.mem_cons_self _ _⟩
      | cons y c'' =>
        simp only [List.cons_append, List.cons.injEq] at hc2
        obtain ⟨rfl, _⟩ := hc2
        obtain ⟨rr, hrr⟩ := h1 l₁' la' ln' c'' hc1
        exact ⟨rr, List.mem_cons_of_mem _ hrr⟩

theorem seen_from_nil (s : List (F × F)) :
    seen_from s s ([] : List (Event F)) := by
  intro c; simp

theorem seen_from_cons (e : Event F) (he : ∀ la ln, e ≠ Event.mark la ln)
    {s0 s1 : List (F × F)} {Δ : List (Event F)}
    (h : seen_from s0 s1 Δ) : seen_from s0 s1 (e :: Δ) := by
  intro c
  rw [h c]
  constructor
  · rintro (h' | h')
    · exact Or.inl h'
    · exact Or.inr (List.mem_cons_of_mem _ h')
  · rintro (h' | h')
    · exact Or.inl h'
    · rcases List.mem_cons.mp h' with h'' | h''
      · exact absurd h''.symm (he c.1 c.2)
      · exact Or.inr h''

theorem seen_from_trans {s0 s1 s2 : List (F × F)} {Δ₁ Δ₂ : List (Event F)}
    (h1 : seen_from s0 s1 Δ₁) (h2 : seen_from s1 s2 Δ₂) :
    seen_from s0 s2 (Δ₁ ++ Δ₂) := by
  intro c
  rw [h2 c, h1 c, List.mem_append]
  tauto

theorem seen_from_mark [DecidableEq F] (s : List (F × F)) (la ln : F) :
    seen_from s (addSeen s (la, ln)) [Event.mark la ln] := by
  intro c
  rw [mem_addSeen]
  simp [Prod.ext_iff, eq_comm]

theorem begins_le_cons {b : ℤ} (e : Event F) {Δ : List (Event F)}
    (he : ∀ la ln r' rad, e = Event.beginSearch la ln r' rad → r' ≤ b)
    (h : begins_le b Δ) : begins_le b (e :: Δ) := by
  intro la ln r' rad hm
  rcases List.mem_cons.mp hm with h' | h'
  · exact he la ln r' rad h'.symm
  · exact h la ln r' rad h'

theorem begins_le_append {b : ℤ} {Δ₁ Δ₂ : List (Event F)}
    (h1 : begins_le b Δ₁) (h2 : begins_le b Δ₂) :
    begins_le b (Δ₁ ++ Δ₂) := by
  intro la ln r' rad hm
  rcases List.mem_append.mp hm with h' | h'
  · exact h1 la ln r' rad h'
  · exact h2 la ln r' rad h'

theorem begins_le_of_bounded {res : ℤ} (hres : res ≤ 12)
    {Δ : List (Event F)} (h : begins_bounded res Δ) : begins_le 12 Δ := by
  intro la ln r' rad hm
  rcases h la ln r' rad hm with rfl | h'
  · exact hres
  · exact h'

theorem begins_bounded_of_le {res : ℤ} {Δ : List (Event F)}
    (h : begins_le 12 Δ) : begins_bounded res Δ :=
  fun la ln r' rad hm => Or.inr (h la ln r' rad hm)

end TraceLemmas

section CrawlLemmas

variable {F Cell Pl PId : Type} [DecidableEq F] [DecidableEq PId]

theorem pushBegin_seen (st : SState F PId Pl) (lat lng : F) (res radius : ℤ) :
    (pushBegin st lat lng res radius).seen_locations = st.seen_locations := rfl

theorem pushBegin_trace (st : SState F PId Pl) (lat lng : F) (res radius : ℤ) :
    (pushBegin st lat lng res radius).trace
      = st.trace ++ [Event.beginSearch lat lng res radius] := rfl

theorem pushBegin_storage (st : SState F PId Pl) (lat lng : F) (res radius : ℤ) :
    (pushBegin st lat lng res radius).dict_storage = st.dict_storage := rfl

theorem afterFetch_seen (env : Env F Cell Pl PId) (st : SState F PId Pl)
    (hla hln : F) (hr : ℤ) :
    (afterFetch env st hla hln hr).seen_locations = st.seen_locations := rfl

theorem afterFetch_trace (env : Env F Cell Pl PId) (st : SState F PId Pl)
    (hla hln : F) (hr : ℤ) :
    (afterFetch env st hla hln hr).trace
      = st.trace ++ [Event.fetch hla hln hr] := rfl

theorem markSeen_seen (st : SState F PId Pl) (hla hln : F) :
    (markSeen st hla hln).seen_locations
      = addSeen st.seen_locations (hla, hln) := rfl

theorem markSeen_trace (st : SState F PId Pl) (hla hln : F) :
    (markSeen st hla hln).trace = st.trace ++ [Event.mark hla hln] := rfl

theorem stateOf_ok (s : SState F PId Pl) :
    stateOf (Except.ok s) = s := rfl

theorem stateOf_error (msg : String) (s : SState F PId Pl) :
    stateOf (Except.error (msg, s)) = s := rfl

theorem get_hex_centers_some (env : Env F Cell Pl PId) (lat lng : F)
    (d res : ℤ) {edge : ℚ}
    (hlk : List.lookup res h3_resolution_to_edge_length_in_meters
      = some edge) :
    get_hex_centers env lat lng d res =
      .ok ((env.h3.grid_disk (env.h3.latlng_to_cell lat lng res)
              ⌊(d : ℚ) / edge⌋).map env.h3.cell_to_latlng,
           ⌊(d : ℚ) / edge⌋) := by
  simp [get_hex_centers, hlk]

theorem get_hex_centers_none (env : Env F Cell Pl PId) (lat lng : F)
    (d res : ℤ)
    (hlk : List.lookup res h3_resolution_to_edge_length_in_meters = none) :
    get_hex_centers env lat lng d res = .error (keyError res) := by
  simp [get_hex_centers, hlk]

theorem emittedTiles_eq (env : Env F Cell Pl PId) (lat lng : F)
    (d res : ℤ) {edge : ℚ}
    (hlk : List.lookup res h3_resolution_to_edge_length_in_meters
      = some edge) :
    emittedTiles env lat lng d res
      = (env.h3.grid_disk (env.h3.latlng_to_cell lat lng res)
          ⌊(d : ℚ) / edge⌋).map env.h3.cell_to_latlng := by
  simp [emittedTiles, get_hex_centers_some env lat lng d res hlk]

theorem search_radius_lookup_none (env : Env F Cell Pl PId) (lat lng : F)
    (res radius : ℤ) (st : SState F PId Pl)
    (hlk : List.lookup res h3_resolution_to_edge_length_in_meters = none) :
    search_radius env lat lng res radius st
      = .error (keyError res, pushBegin st lat lng res radius) := by
  rw [search_radius.eq_def]
  split
  · rfl
  · rename_i edge heq
    rw [hlk] at heq
    cases heq

theorem search_radius_eq_loop (env : Env F Cell Pl PId) (lat lng : F)
    (res radius : ℤ) (st : SState F PId Pl) {edge : ℚ}
    (hlk : List.lookup res h3_resolution_to_edge_length_in_meters
      = some edge) :
    search_radius env lat lng res radius st
      = processTiles env res ⌈edge⌉ (le11_of_lookup hlk)
          (emittedTiles env lat lng radius res)
          (pushBegin st lat lng res radius) := by
  rw [search_radius.eq_def]
  split
  · rename_i heq
    rw [hlk] at heq
    cases heq
  · rename_i edge' heq
    have hE : edge' = edge := by
      rw [heq] at hlk
      exact Option.some.inj hlk
    subst hE
    rw [emittedTiles_eq env lat lng radius res heq]
    simp only [get_hex_centers_some env lat lng radius res heq]

theorem processTiles_nil (env : Env F Cell Pl PId) (res hr : ℤ)
    (hle : res ≤ 11) (st : SState F PId Pl) :
    processTiles env res hr hle [] st = .ok st := by
  rw [processTiles.eq_def]

theorem processTiles_cons_seen (env : Env F Cell Pl PId) (res hr : ℤ)
    (hle : res ≤ 11) (hla hln : F) (rest : List (F × F))
    (st : SState F PId Pl)
    (hseen : (hla, hln) ∈ st.seen_locations) :
    processTiles env res hr hle ((hla, hln) :: rest) st
      = processTiles env res hr hle rest st := by
  rw [processTiles.eq_def]
  simp [hseen]

theorem processTiles_cons_sat (env : Env F Cell Pl PId) (res hr : ℤ)
    (hle : res ≤ 11) (hla hln : F) (rest : List (F × F))
    (st : SState F PId Pl)
    (hseen : (hla, hln) ∉ st.seen_locations)
    (hsat : (get_places env hla hln hr).length = 60) :
    processTiles env res hr hle ((hla, hln) :: rest) st =
      match search_radius env hla hln (res + 1) hr
          (afterFetch env st hla hln hr) with
      | .error e => .error e
      | .ok st2 =>
        processTiles env res hr hle rest (markSeen st2 hla hln) := by
  rw [processTiles.eq_def]
  simp [hseen, hsat]

theorem processTiles_cons_nosat (env : Env F Cell Pl PId) (res hr : ℤ)
    (hle : res ≤ 11) (hla hln : F) (rest : List (F × F))
    (st : SState F PId Pl)
    (hseen : (hla, hln) ∉ st.seen_locations)
    (hsat : (get_places env hla hln hr).length ≠ 60) :
    processTiles env res hr hle ((hla, hln) :: rest) st
      = processTiles env res hr hle rest
          (markSeen (afterFetch env st hla hln hr) hla hln) := by
  rw [processTiles.eq_def]
  simp [hseen, hsat]

end CrawlLemmas

section Master

variable {F Cell Pl PId : Type} [DecidableEq F] [DecidableEq PId]

mutual

theorem search_radius_master (env : Env F Cell Pl PId) (lat lng : F)
    (res radius : ℤ) (st : SState F PId Pl) :
    ∃ Δ,
      (stateOf (search_radius env lat lng res radius st)).trace
          = st.trace ++ Event.beginSearch lat lng res radius :: Δ ∧
        marks_fetched (Event.beginSearch lat lng res radius :: Δ) ∧
        begins_bounded res (Event.beginSearch lat lng res radius :: Δ) ∧
        seen_from st.seen_locations
          (stateOf (search_radius env lat lng res radius st)).seen_locations
          (Event.beginSearch lat lng res radius :: Δ) := by
  cases hlk : List.lookup res h3_resolution_to_edge_length_in_meters with
  | none =>
    rw [search_radius_lookup_none env lat lng res radius st hlk]
    refine ⟨[], ?_, ?_, ?_, ?_⟩
    · simp [stateOf, pushBegin]
    · exact marks_fetched_cons _ (fun la ln => by simp) marks_fetched_nil
    · intro la ln r' rad hm
      rcases List.mem_cons.mp hm with h' | h'
      · simp only [Event.beginSearch.injEq] at h'
        exact Or.inl h'.2.2.1
      · simp at h'
    · exact seen_from_cons _ (fun la ln => by simp) (seen_from_nil _)
  | some edge =>
    rw [search_radius_eq_loop env lat lng res radius st hlk]
    obtain ⟨Δ₂, h1, h2, h3, h4⟩ :=
      processTiles_master env res ⌈edge⌉ (le11_of_lookup hlk)
        (emittedTiles env lat lng radius res)
        (pushBegin st lat lng res radius)
    refine ⟨Δ₂, ?_, ?_, ?_, ?_⟩
    · rw [h1, pushBegin_trace]
      simp
    · exact marks_fetched_cons _ (fun la ln => by simp) h2
    · intro la ln r' rad hm
      rcases List.mem_cons.mp hm with h' | h'
      · simp only [Event.beginSearch.injEq] at h'
        exact Or.inl h'.2.2.1
      · exact Or.inr (h3 la ln r' rad h')
    · refine seen_from_cons _ (fun la ln => by simp) ?_
      rw [pushBegin_seen] at h4
      exact h4
termination_by ((12 - res).toNat, 1, 0)

theorem processTiles_master (env : Env F Cell Pl PId) (res hr : ℤ)
    (hle : res ≤ 11) (tiles : List (F × F)) (st : SState F PId Pl) :
    ∃ Δ,
      (stateOf (processTiles env res hr hle tiles st)).trace
          = st.trace ++ Δ ∧
        marks_fetched Δ ∧ begins_le 12 Δ ∧
        seen_from st.seen_locations
          (stateOf (processTiles env res hr hle tiles st)).seen_locations
          Δ := by
  induction tiles generalizing st with
  | nil =>
    rw [processTiles_nil]
    refine ⟨[], by simp [stateOf], marks_fetched_nil, ?_, seen_from_nil _⟩
    intro la ln r' rad hm
    simp at hm
  | cons t rest ih =>
    obtain ⟨hla, hln⟩ := t
    by_cases hseen : (hla, hln) ∈ st.seen_locations
    · rw [processTiles_cons_seen env res hr hle hla hln rest st hseen]
      exact ih st
    · by_cases hsat : (get_places env hla hln hr).length = 60
      · rw [processTiles_cons_sat env res hr hle hla hln rest st hseen hsat]
        obtain ⟨Δr, tr, mfr, bbr, sfr⟩ :=
          search_radius_master env hla hln (res + 1) hr
            (afterFetch env st hla hln hr)
        cases hres : search_radius env hla hln (res + 1) hr
            (afterFetch env st hla hln hr) with
        | error e =>
          obtain ⟨msg, est⟩ := e
          rw [hres] at tr sfr
          simp only [hres]
          refine ⟨Event.fetch hla hln hr
              :: Event.beginSearch hla hln (res + 1) hr :: Δr, ?_, ?_, ?_, ?_⟩
          · rw [stateOf_error] at tr ⊢
            rw [tr, afterFetch_trace]
            simp
          · exact marks_fetched_cons _ (fun la ln => by simp) mfr
          · refine begins_le_cons _ (fun la ln r' rad h' => by simp at h') ?_
            exact begins_le_of_bounded (by omega) bbr
          · rw [stateOf_error] at sfr ⊢
            rw [afterFetch_seen] at sfr
            exact seen_from_cons _ (fun la ln => by simp) sfr
        | ok st2 =>
          rw [hres] at tr sfr
          simp only [hres]
          obtain ⟨Δrest, h1, h2, h3, h4⟩ := ih (markSeen st2 hla hln)
          refine ⟨Event.fetch hla hln hr ::
              (Event.beginSearch hla hln (res + 1) hr :: Δr)
                ++ Event.mark hla hln :: Δrest, ?_, ?_, ?_, ?_⟩
          · rw [h1, markSeen_trace]
            rw [stateOf_ok] at tr
            rw [tr, afterFetch_trace]
            simp
          · exact marks_fetched_tile hla hln hr _ _ mfr h2
          · refine begins_le_cons _ (fun la ln r' rad h' => by simp at h') ?_
            refine begins_le_append (begins_le_of_bounded (by omega) bbr) ?_
            exact begins_le_cons _ (fun la ln r' rad h' => by simp at h') h3
          · rw [stateOf_ok] at sfr
            rw [afterFetch_seen] at sfr
            rw [markSeen_seen] at h4
            refine seen_from_cons _ (fun la ln => by simp) ?_
            exact seen_from_trans sfr
              (seen_from_trans (seen_from_mark st2.seen_locations hla hln) h4)
      · rw [processTiles_cons_nosat env res hr hle hla hln rest st hseen hsat]
        obtain ⟨Δrest, h1, h2, h3, h4⟩ :=
          ih (markSeen (afterFetch env st hla hln hr) hla hln)
        refine ⟨Event.fetch hla hln hr :: Event.mark hla hln :: Δrest,
            ?_, ?_, ?_, ?_⟩
        · rw [h1, markSeen_trace, afterFetch_trace]
          simp
        · exact marks_fetched_tile hla hln hr [] Δrest marks_fetched_nil h2
        · refine begins_le_cons _ (fun la ln r' rad h' => by simp at h') ?_
          exact begins_le_cons _ (fun la ln r' rad h' => by simp at h') h3
        · rw [markSeen_seen, afterFetch_seen] at h4
          refine seen_from_cons _ (fun la ln => by simp) ?_
          exact seen_from_trans
            (seen_from_mark st.seen_locations hla hln) h4
termination_by ((12 - res).toNat, 0, tiles.length)

end

end Master

section Support

variable {F Cell Pl PId : Type} [DecidableEq F] [DecidableEq PId]

theorem lookup_append_some {α β : Type} [BEq α] (l₁ l₂ : List (α × β))
    (a : α) (b : β) (h : List.lookup a l₁ = some b) :
    List.lookup a (l₁ ++ l₂) = some b := by
  induction l₁ with
  | nil => simp [List.lookup] at h
  | cons x l ih =>
    obtain ⟨k, v⟩ := x
    rw [List.cons_append]
    rw [List.lookup] at h ⊢
    cases hak : a == k with
    | true =>
      simp only [hak] at h ⊢
      exact h
    | false =>
      simp only [hak] at h ⊢
      exact ih h

theorem processTiles_all_seen (env : Env F Cell Pl PId) (res hr : ℤ)
    (hle : res ≤ 11) (tiles : List (F × F)) (st : SState F PId Pl)
    (h : ∀ t ∈ tiles, t ∈ st.seen_locations) :
    processTiles env res hr hle tiles st = .ok st := by
  induction tiles with
  | nil => exact processTiles_nil env res hr hle st
  | cons t rest ih =>
    obtain ⟨hla, hln⟩ := t
    rw [processTiles_cons_seen env res hr hle hla hln rest st
      (h _ (List.mem_cons_self _ _))]
    exact ih fun t ht => h t (List.mem_cons_of_mem _ ht)

theorem processTiles_append (env : Env F Cell Pl PId) (res hr : ℤ)
    (hle : res ≤ 11) (l₁ l₂ : List (F × F)) (st : SState F PId Pl) :
    processTiles env res hr hle (l₁ ++ l₂) st =
      match processTiles env res hr hle l₁ st with
      | .ok st1 => processTiles env res hr hle l₂ st1
      | .error e => .error e := by
  induction l₁ generalizing st with
  | nil => rw [List.nil_append, processTiles_nil]
  | cons t rest ih =>
    obtain ⟨hla, hln⟩ := t
    by_cases hseen : (hla, hln) ∈ st.seen_locations
    · rw [List.cons_append,
        processTiles_cons_seen env res hr hle hla hln (rest ++ l₂) st hseen,
        processTiles_cons_seen env res hr hle hla hln rest st hseen, ih]
    · by_cases hsat : (get_places env hla hln hr).length = 60
      · rw [List.cons_append,
          processTiles_cons_sat env res hr hle hla hln (rest ++ l₂) st
            hseen hsat,
          processTiles_cons_sat env res hr hle hla hln rest st hseen hsat]
        cases hres : search_radius env hla hln (res + 1) hr
            (afterFetch env st hla hln hr) with
        | error e => rfl
        | ok st2 => exact ih (markSeen st2 hla hln)
      · rw [List.cons_append,
          processTiles_cons_nosat env res hr hle hla hln (rest ++ l₂) st
            hseen hsat,
          processTiles_cons_nosat env res hr hle hla hln rest st hseen hsat]
        exact ih _

end Support

theorem ceil_edge_res8 : (⌈(461.354 : ℚ)⌉ : ℤ) = 462 := by
  rw [Int.ceil_eq_iff]
  constructor <;> norm_num

theorem ceil_edge_res9 : (⌈(174.375 : ℚ)⌉ : ℤ) = 175 := by
  rw [Int.ceil_eq_iff]
  constructor <;> norm_num

theorem floor_neg_one_div : (⌊((-1 : ℤ) : ℚ) / 461.354⌋ : ℤ) = -1 := by
  rw [Int.floor_eq_iff]
  constructor <;> norm_num

section Claims1

variable {F Cell Pl PId : Type} [DecidableEq F] [DecidableEq PId]

/-- C4: merging a fetched entity whose identifier is already a key of
`dict_storage` (lines 135-142) never overwrites or modifies the stored
record: the lookup for that identifier still answers the first-seen
record after the merge; later duplicates are discarded. -/
theorem C4_first_seen_wins (place_id : Pl → PId)
    (dict_storage : List (PId × Pl)) (places_found : List Pl)
    (pid : PId) (v : Pl)
    (h : List.lookup pid dict_storage = some v) :
    List.lookup pid (mergePlaces place_id dict_storage places_found)
      = some v := by
  induction places_found generalizing dict_storage with
  | nil => exact h
  | cons p ps ih =>
    rw [mergePlaces, List.foldl_cons]
    by_cases hp : (List.lookup (place_id p) dict_storage).isSome
    · rw [if_pos hp]
      exact ih dict_storage h
    · rw [if_neg hp]
      exact ih _ (lookup_append_some dict_storage [(place_id p, p)] pid v h)

/-- C4 witness: an entity with the already-present identifier 1 but a
different payload does not replace the stored record (1, 5). -/
theorem C4_first_seen_wins_witness :
    List.lookup (1 : ℤ) [((1 : ℤ), (5 : ℤ))] = some 5 ∧
      List.lookup (1 : ℤ)
        (mergePlaces (fun p => p % 10) [((1 : ℤ), (5 : ℤ))] [11]) = some 5 :=
  ⟨rfl, C4_first_seen_wins (fun p => p % 10) [(1, 5)] [11] 1 5 rfl⟩

/-- C3: a `search_radius` call whose tiler emission is entirely
contained in `seen_locations` issues no provider (places) call, leaves
the entity store unchanged, leaves the visited set unchanged, and adds
only the entry marker to the trace. -/
theorem C3_all_seen_idempotent (env : Env F Cell Pl PId) (lat lng : F)
    (res radius : ℤ) (st : SState F PId Pl)
    (h : ∀ t ∈ emittedTiles env lat lng radius res,
      t ∈ st.seen_locations) :
    (stateOf (search_radius env lat lng res radius st)).dict_storage
        = st.dict_storage ∧
      (stateOf (search_radius env lat lng res radius st)).seen_locations
        = st.seen_locations ∧
      (stateOf (search_radius env lat lng res radius st)).trace
        = st.trace ++ [Event.beginSearch lat lng res radius] := by
  have key : stateOf (search_radius env lat lng res radius st)
      = pushBegin st lat lng res radius := by
    cases hlk :
        List.lookup res h3_resolution_to_edge_length_in_meters with
    | none =>
      rw [search_radius_lookup_none env lat lng res radius st hlk]
      exact stateOf_error _ _
    | some edge =>
      rw [search_radius_eq_loop env lat lng res radius st hlk,
        processTiles_all_seen env res ⌈edge⌉ (le11_of_lookup hlk)
          (emittedTiles env lat lng radius res)
          (pushBegin st lat lng res radius)
          (fun t ht => by rw [pushBegin_seen]; exact h t ht)]
      exact stateOf_ok _
  rw [key]
  exact ⟨rfl, rfl, rfl⟩

/-- C3 witness: with the single emitted tile (0, 0) already visited, the
run only records its entry marker and changes nothing. -/
theorem C3_all_seen_idempotent_witness :
    (∀ t ∈ emittedTiles emptyEnv 0 0 100 8,
        t ∈ ([((0 : ℤ), (0 : ℤ))] : List (ℤ × ℤ))) ∧
      ((stateOf (search_radius emptyEnv 0 0 8 100
            ⟨[], [(0, 0)], []⟩)).dict_storage = [] ∧
        (stateOf (search_radius emptyEnv 0 0 8 100
            ⟨[], [(0, 0)], []⟩)).seen_locations = [(0, 0)] ∧
        (stateOf (search_radius emptyEnv 0 0 8 100
            ⟨[], [(0, 0)], []⟩)).trace
          = [] ++ [Event.beginSearch 0 0 8 100]) :=
  ⟨by decide, C3_all_seen_idempotent emptyEnv 0 0 8 100 ⟨[], [(0, 0)], []⟩
    (by decide)⟩

/-- C6: requesting tiling or search at a resolution absent from the
edge-length table raises the `KeyError`, which propagates to the caller
as is; no default edge length and no fallback resolution appear. -/
theorem C6_unsupported_resolution_fatal (res : ℤ)
    (hlk : List.lookup res h3_resolution_to_edge_length_in_meters
      = none) :
    (∀ (env : Env F Cell Pl PId) (lat lng : F) (d : ℤ),
        get_hex_centers env lat lng d res = .error (keyError res)) ∧
      ∀ (env : Env F Cell Pl PId) (lat lng : F) (radius : ℤ)
        (st : SState F PId Pl),
        search_radius env lat lng res radius st
          = .error (keyError res, pushBegin st lat lng res radius) := by
  constructor
  · intro env lat lng d
    exact get_hex_centers_none env lat lng d res hlk
  · intro env lat lng radius st
    exact search_radius_lookup_none env lat lng res radius st hlk

/-- C6 witness: resolution 12 (one past the finest table entry) makes
both the tiler and the search raise `KeyError: 12`. -/
theorem C6_unsupported_resolution_fatal_witness :
    List.lookup (12 : ℤ) h3_resolution_to_edge_length_in_meters = none ∧
      get_hex_centers emptyEnv 0 0 500 12 = .error (keyError 12) ∧
      search_radius emptyEnv 0 0 12 500 ⟨[], [], []⟩
        = .error (keyError 12, pushBegin ⟨[], [], []⟩ 0 0 12 500) :=
  ⟨rfl, (C6_unsupported_resolution_fatal 12 rfl).1 emptyEnv 0 0 500,
    (C6_unsupported_resolution_fatal 12 rfl).2 emptyEnv 0 0 500
      ⟨[], [], []⟩⟩

/-- C2: the recursion of `search_radius` is bounded: a call at a
resolution with no table entry dies immediately with the `KeyError`
(rather than recursing), every table entry is at a resolution of at
most 11, and every `search_radius` entry recorded by a run is at the
starting resolution or at most 12 = 11 + 1 (so resolutions past the
finest entry are never descended into). -/
theorem C2_recursion_bounded (env : Env F Cell Pl PId) (lat lng : F)
    (res radius : ℤ) (st : SState F PId Pl) :
    (List.lookup res h3_resolution_to_edge_length_in_meters = none →
        search_radius env lat lng res radius st
          = .error (keyError res, pushBegin st lat lng res radius)) ∧
      (∀ (r : ℤ) (e : ℚ),
        List.lookup r h3_resolution_to_edge_length_in_meters = some e →
          r ≤ 11) ∧
      ∀ (la ln : F) (r' rad : ℤ),
        Event.beginSearch la ln r' rad
            ∈ (stateOf (search_radius env lat lng res radius st)).trace →
          Event.beginSearch la ln r' rad ∈ st.trace ∨ r' = res ∨
            r' ≤ 12 := by
  refine ⟨fun hlk => search_radius_lookup_none env lat lng res radius st hlk,
    fun r e h => le11_of_lookup h, ?_⟩
  obtain ⟨Δ, h1, _, h3, _⟩ := search_radius_master env lat lng res radius st
  intro la ln r' rad hm
  rw [h1] at hm
  rcases List.mem_append.mp hm with h' | h'
  · exact Or.inl h'
  · exact Or.inr (h3 la ln r' rad h')

/-- C2 witness: at resolution 12 the run raises `KeyError: 12` at once,
and resolution 8 is within the table bound. -/
theorem C2_recursion_bounded_witness :
    List.lookup (12 : ℤ) h3_resolution_to_edge_length_in_meters = none ∧
      search_radius emptyEnv 0 0 12 100 ⟨[], [], []⟩
        = .error (keyError 12, pushBegin ⟨[], [], []⟩ 0 0 12 100) ∧
      (8 : ℤ) ≤ 11 :=
  ⟨rfl, (C2_recursion_bounded emptyEnv 0 0 12 100 ⟨[], [], []⟩).1 rfl,
    (C2_recursion_bounded emptyEnv 0 0 12 100 ⟨[], [], []⟩).2.1 8 461.354
      rfl⟩

/-- C7: a run only appends to the trace; within the appended segment,
every `seen_locations.add` of a tile center is preceded by a completed
(fully drained) `get_places` call for that same center; and the visited
set after the run is exactly the one before plus the centers whose add
the segment holds — so a tile interrupted mid-fetch (its add not yet in
the trace) is absent from the visited set and eligible for retry. -/
theorem C7_mark_only_after_fetch (env : Env F Cell Pl PId) (lat lng : F)
    (res radius : ℤ) (st : SState F PId Pl) :
    ∃ Δ,
      (stateOf (search_radius env lat lng res radius st)).trace
          = st.trace ++ Δ ∧
        (∀ l₁ (la ln : F) l₂, Δ = l₁ ++ Event.mark la ln :: l₂ →
          ∃ r, Event.fetch la ln r ∈ l₁) ∧
        ∀ c : F × F,
          c ∈ (stateOf (search_radius env lat lng res radius
                st)).seen_locations
            ↔ c ∈ st.seen_locations ∨ Event.mark c.1 c.2 ∈ Δ := by
  obtain ⟨Δ, h1, h2, _, h4⟩ := search_radius_master env lat lng res radius st
  exact ⟨Event.beginSearch lat lng res radius :: Δ, h1, h2, h4⟩

/-- C7 witness: the property instantiated on a concrete saturating run. -/
theorem C7_mark_only_after_fetch_witness :
    ∃ Δ,
      (stateOf (search_radius satEnv 5 5 8 1000 ⟨[], [], []⟩)).trace
          = [] ++ Δ ∧
        (∀ l₁ (la ln : ℤ) l₂, Δ = l₁ ++ Event.mark la ln :: l₂ →
          ∃ r, Event.fetch la ln r ∈ l₁) ∧
        ∀ c : ℤ × ℤ,
          c ∈ (stateOf (search_radius satEnv 5 5 8 1000
                ⟨[], [], []⟩)).seen_locations
            ↔ c ∈ ([] : List (ℤ × ℤ)) ∨ Event.mark c.1 c.2 ∈ Δ :=
  C7_mark_only_after_fetch satEnv 5 5 8 1000 ⟨[], [], []⟩

end Claims1

section Claims2

variable {F Cell Pl PId : Type} [DecidableEq F] [DecidableEq PId]

/-- C1: when the loop of `search_radius` reaches an unvisited tile `t`
(after `tiles₁`, with loop state `st₁`) and its drained fetch returns
exactly 60 entities — the provider cap (line 144) — then immediately
after that fetch the run enters `search_radius` at `t` with
`h_resolution + 1` and radius `⌈edge⌉` (the `hex_radius` of line 124):
the recursion happens before any further event, in particular before
the next sibling tile of the emission order is processed. -/
theorem C1_saturated_tile_recurses_before_next (env : Env F Cell Pl PId)
    (lat lng : F) (res radius : ℤ) (st : SState F PId Pl) {edge : ℚ}
    (hlk : List.lookup res h3_resolution_to_edge_length_in_meters
      = some edge)
    (tiles₁ : List (F × F)) (t : F × F) (tiles₂ : List (F × F))
    (hemit : emittedTiles env lat lng radius res = tiles₁ ++ t :: tiles₂)
    (st₁ : SState F PId Pl)
    (h₁ : processTiles env res ⌈edge⌉ (le11_of_lookup hlk) tiles₁
        (pushBegin st lat lng res radius) = .ok st₁)
    (hseen : t ∉ st₁.seen_locations)
    (hsat : (get_places env t.1 t.2 ⌈edge⌉).length = 60) :
    ∃ Δ, (stateOf (search_radius env lat lng res radius st)).trace
        = st₁.trace ++ Event.fetch t.1 t.2 ⌈edge⌉
            :: Event.beginSearch t.1 t.2 (res + 1) ⌈edge⌉ :: Δ := by
  obtain ⟨hla, hln⟩ := t
  dsimp only at hseen hsat ⊢
  rw [search_radius_eq_loop env lat lng res radius st hlk, hemit,
    processTiles_append env res ⌈edge⌉ (le11_of_lookup hlk) tiles₁
      ((hla, hln) :: tiles₂) (pushBegin st lat lng res radius)]
  simp only [h₁]
  rw [processTiles_cons_sat env res ⌈edge⌉ (le11_of_lookup hlk) hla hln
    tiles₂ st₁ hseen hsat]
  obtain ⟨Δr, tr, _, _, _⟩ :=
    search_radius_master env hla hln (res + 1) ⌈edge⌉
      (afterFetch env st₁ hla hln ⌈edge⌉)
  cases hres : search_radius env hla hln (res + 1) ⌈edge⌉
      (afterFetch env st₁ hla hln ⌈edge⌉) with
  | error e =>
    obtain ⟨msg, est⟩ := e
    rw [hres] at tr
    rw [stateOf_error] at tr
    simp only [hres]
    refine ⟨Δr, ?_⟩
    rw [stateOf_error, tr, afterFetch_trace]
    simp
  | ok st2 =>
    rw [hres] at tr
    rw [stateOf_ok] at tr
    simp only [hres]
    obtain ⟨Δ₂, h1', _, _, _⟩ :=
      processTiles_master env res ⌈edge⌉ (le11_of_lookup hlk) tiles₂
        (markSeen st2 hla hln)
    refine ⟨Δr ++ Event.mark hla hln :: Δ₂, ?_⟩
    rw [h1', markSeen_trace, tr, afterFetch_trace]
    simp

/-- C1 witness: at resolution 8 the tile (5, 5) saturates (60 results
for hex radius 462) and the trace continues with the recursive entry at
resolution 8 + 1 and radius 462 right after the fetch. -/
theorem C1_saturated_tile_recurses_before_next_witness :
    List.lookup (8 : ℤ) h3_resolution_to_edge_length_in_meters
        = some 461.354 ∧
      emittedTiles satEnv 5 5 1000 8 = [] ++ (5, 5) :: [] ∧
      processTiles satEnv 8 ⌈(461.354 : ℚ)⌉ (le11_of_lookup rfl) []
          (pushBegin ⟨[], [], []⟩ 5 5 8 1000)
        = .ok (pushBegin ⟨[], [], []⟩ 5 5 8 1000) ∧
      ((5 : ℤ), (5 : ℤ)) ∉
        (pushBegin (⟨[], [], []⟩ : SState ℤ ℤ ℤ) 5 5 8
          1000).seen_locations ∧
      (get_places satEnv 5 5 ⌈(461.354 : ℚ)⌉).length = 60 ∧
      ∃ Δ, (stateOf (search_radius satEnv 5 5 8 1000
            ⟨[], [], []⟩)).trace
          = (pushBegin (⟨[], [], []⟩ : SState ℤ ℤ ℤ) 5 5 8 1000).trace
            ++ Event.fetch 5 5 ⌈(461.354 : ℚ)⌉
              :: Event.beginSearch 5 5 (8 + 1) ⌈(461.354 : ℚ)⌉ :: Δ :=
  ⟨rfl, by decide, processTiles_nil satEnv 8 _ _ _, by decide,
    by rw [ceil_edge_res8]; decide,
    C1_saturated_tile_recurses_before_next satEnv 5 5 8 1000 ⟨[], [], []⟩
      rfl [] (5, 5) [] (by decide) (pushBegin ⟨[], [], []⟩ 5 5 8 1000)
      (processTiles_nil satEnv 8 _ _ _) (by decide)
      (by rw [ceil_edge_res8]; decide)⟩

/-- C10: in the same situation as C1 (saturated unvisited tile `t`), if
the recursive refinement at `res + 1` returns normally with state
`st₂`, the `seen_locations.add` of `t` is the very next event after the
complete recursion trace (`st₂.trace`); and if the recursion is cut
short (an exception, e.g. an interruption, propagating out of it), the
whole run ends in that error and the parent tile is never marked. -/
theorem C10_parent_marked_only_after_refinement (env : Env F Cell Pl PId)
    (lat lng : F) (res radius : ℤ) (st : SState F PId Pl) {edge : ℚ}
    (hlk : List.lookup res h3_resolution_to_edge_length_in_meters
      = some edge)
    (tiles₁ : List (F × F)) (t : F × F) (tiles₂ : List (F × F))
    (hemit : emittedTiles env lat lng radius res = tiles₁ ++ t :: tiles₂)
    (st₁ : SState F PId Pl)
    (h₁ : processTiles env res ⌈edge⌉ (le11_of_lookup hlk) tiles₁
        (pushBegin st lat lng res radius) = .ok st₁)
    (hseen : t ∉ st₁.seen_locations)
    (hsat : (get_places env t.1 t.2 ⌈edge⌉).length = 60) :
    (∀ st₂ : SState F PId Pl,
        search_radius env t.1 t.2 (res + 1) ⌈edge⌉
            (afterFetch env st₁ t.1 t.2 ⌈edge⌉) = .ok st₂ →
          ∃ Δ, (stateOf (search_radius env lat lng res radius st)).trace
              = st₂.trace ++ Event.mark t.1 t.2 :: Δ) ∧
      ∀ (m : String) (st₂ : SState F PId Pl),
        search_radius env t.1 t.2 (res + 1) ⌈edge⌉
            (afterFetch env st₁ t.1 t.2 ⌈edge⌉) = .error (m, st₂) →
          search_radius env lat lng res radius st = .error (m, st₂) := by
  obtain ⟨hla, hln⟩ := t
  dsimp only at hseen hsat ⊢
  have key : search_radius env lat lng res radius st
      = match search_radius env hla hln (res + 1) ⌈edge⌉
            (afterFetch env st₁ hla hln ⌈edge⌉) with
        | .error e => .error e
        | .ok st2 =>
          processTiles env res ⌈edge⌉ (le11_of_lookup hlk) tiles₂
            (markSeen st2 hla hln) := by
    rw [search_radius_eq_loop env lat lng res radius st hlk, hemit,
      processTiles_append env res ⌈edge⌉ (le11_of_lookup hlk) tiles₁
        ((hla, hln) :: tiles₂) (pushBegin st lat lng res radius)]
    simp only [h₁]
    rw [processTiles_cons_sat env res ⌈edge⌉ (le11_of_lookup hlk) hla hln
      tiles₂ st₁ hseen hsat]
  constructor
  · intro st₂ hres
    rw [key]
    simp only [hres]
    obtain ⟨Δ₂, h1', _, _, _⟩ :=
      processTiles_master env res ⌈edge⌉ (le11_of_lookup hlk) tiles₂
        (markSeen st₂ hla hln)
    refine ⟨Δ₂, ?_⟩
    rw [h1', markSeen_trace]
    simp
  · intro m st₂ hres
    rw [key]
    simp only [hres]

end Claims2

section Claims3

variable {F Cell Pl PId : Type} [DecidableEq F] [DecidableEq PId]

/-- C10 witness: the saturated tile (5, 5) at resolution 8 triggers a
refinement at 8 + 1 that completes normally; its resulting state is
followed in the trace by the parent's mark. -/
theorem C10_parent_marked_only_after_refinement_witness :
    List.lookup (8 : ℤ) h3_resolution_to_edge_length_in_meters
        = some 461.354 ∧
      emittedTiles satEnv 5 5 1000 8 = [] ++ (5, 5) :: [] ∧
      processTiles satEnv 8 ⌈(461.354 : ℚ)⌉ (le11_of_lookup rfl) []
          (pushBegin ⟨[], [], []⟩ 5 5 8 1000)
        = .ok (pushBegin ⟨[], [], []⟩ 5 5 8 1000) ∧
      ((5 : ℤ), (5 : ℤ)) ∉
        (pushBegin (⟨[], [], []⟩ : SState ℤ ℤ ℤ) 5 5 8
          1000).seen_locations ∧
      (get_places satEnv 5 5 ⌈(461.354 : ℚ)⌉).length = 60 ∧
      search_radius satEnv 5 5 (8 + 1) ⌈(461.354 : ℚ)⌉
          (afterFetch satEnv (pushBegin ⟨[], [], []⟩ 5 5 8 1000) 5 5
            ⌈(461.354 : ℚ)⌉)
        = .ok (markSeen
            (afterFetch satEnv
              (pushBegin
                (afterFetch satEnv (pushBegin ⟨[], [], []⟩ 5 5 8 1000)
                  5 5 ⌈(461.354 : ℚ)⌉)
                5 5 (8 + 1) ⌈(461.354 : ℚ)⌉)
              5 5 ⌈(174.375 : ℚ)⌉)
            5 5) ∧
      ∃ Δ, (stateOf (search_radius satEnv 5 5 8 1000
            ⟨[], [], []⟩)).trace
          = (markSeen
              (afterFetch satEnv
                (pushBegin
                  (afterFetch satEnv (pushBegin ⟨[], [], []⟩ 5 5 8 1000)
                    5 5 ⌈(461.354 : ℚ)⌉)
                  5 5 (8 + 1) ⌈(461.354 : ℚ)⌉)
                5 5 ⌈(174.375 : ℚ)⌉)
              5 5).trace ++ Event.mark 5 5 :: Δ := by
  have hlk9 : List.lookup ((8 : ℤ) + 1)
      h3_resolution_to_edge_length_in_meters = some (174.375 : ℚ) := rfl
  have hres : search_radius satEnv 5 5 (8 + 1) ⌈(461.354 : ℚ)⌉
      (afterFetch satEnv (pushBegin ⟨[], [], []⟩ 5 5 8 1000) 5 5
        ⌈(461.354 : ℚ)⌉)
      = .ok (markSeen
          (afterFetch satEnv
            (pushBegin
              (afterFetch satEnv (pushBegin ⟨[], [], []⟩ 5 5 8 1000)
                5 5 ⌈(461.354 : ℚ)⌉)
              5 5 (8 + 1) ⌈(461.354 : ℚ)⌉)
            5 5 ⌈(174.375 : ℚ)⌉)
          5 5) := by
    rw [search_radius_eq_loop satEnv 5 5 (8 + 1) ⌈(461.354 : ℚ)⌉
      (afterFetch satEnv (pushBegin ⟨[], [], []⟩ 5 5 8 1000) 5 5
        ⌈(461.354 : ℚ)⌉) hlk9]
    rw [show emittedTiles satEnv 5 5 ⌈(461.354 : ℚ)⌉ (8 + 1)
        = [((5 : ℤ), (5 : ℤ))] from by rw [ceil_edge_res8]; decide]
    rw [processTiles_cons_nosat satEnv (8 + 1) ⌈(174.375 : ℚ)⌉
      (le11_of_lookup hlk9) 5 5 []
      (pushBegin
        (afterFetch satEnv (pushBegin ⟨[], [], []⟩ 5 5 8 1000) 5 5
          ⌈(461.354 : ℚ)⌉)
        5 5 (8 + 1) ⌈(461.354 : ℚ)⌉)
      (by decide) (by rw [ceil_edge_res9]; decide)]
    rw [processTiles_nil]
  exact ⟨rfl, by decide, processTiles_nil satEnv 8 _ _ _, by decide,
    by rw [ceil_edge_res8]; decide, hres,
    (C10_parent_marked_only_after_refinement satEnv 5 5 8 1000
        ⟨[], [], []⟩ rfl [] (5, 5) [] (by decide)
        (pushBegin ⟨[], [], []⟩ 5 5 8 1000)
        (processTiles_nil satEnv 8 _ _ _) (by decide)
        (by rw [ceil_edge_res8]; decide)).1 _ hres⟩

/-- C5 (amended with a nonnegative radius): for a supported resolution
and `0 ≤ radius_m` with `radius_m < edge_length(res)`, the tiler
computes hop count 0 and exactly one tile, the origin cell centroid. -/
theorem C5_small_radius_single_tile (env : Env F Cell Pl PId)
    (lat lng : F) (d res : ℤ) {edge : ℚ}
    (hlk : List.lookup res h3_resolution_to_edge_length_in_meters
      = some edge)
    (h0 : 0 ≤ d) (hlt : (d : ℚ) < edge) :
    get_hex_centers env lat lng d res
      = .ok ([env.h3.cell_to_latlng (env.h3.latlng_to_cell lat lng res)],
          0) := by
  have hd0 : (0 : ℚ) ≤ (d : ℚ) := by exact_mod_cast h0
  have hpos : (0 : ℚ) < edge := lt_of_le_of_lt hd0 hlt
  have hfl : ⌊(d : ℚ) / edge⌋ = 0 := by
    rw [Int.floor_eq_zero_iff, Set.mem_Ico]
    exact ⟨div_nonneg hd0 hpos.le, (div_lt_one hpos).mpr hlt⟩
  rw [get_hex_centers_some env lat lng d res hlk, hfl,
    env.h3.grid_disk_zero]
  rfl

/-- C5 witness: radius 100 < 461.354 at resolution 8 yields hop count 0
and the single origin centroid. -/
theorem C5_small_radius_single_tile_witness :
    List.lookup (8 : ℤ) h3_resolution_to_edge_length_in_meters
        = some 461.354 ∧
      (0 : ℤ) ≤ 100 ∧ ((100 : ℤ) : ℚ) < 461.354 ∧
      get_hex_centers emptyEnv 0 0 100 8
        = .ok ([idH3.cell_to_latlng (idH3.latlng_to_cell 0 0 8)], 0) :=
  ⟨rfl, by norm_num, by norm_num,
    C5_small_radius_single_tile emptyEnv 0 0 100 8 rfl (by norm_num)
      (by norm_num)⟩

/-- C5 counterexample: called with `radius_m = -1`, which is strictly
less than `edge_length(8) = 461.354`, the tiler yields hop count
`⌊-1 / 461.354⌋ = -1`, not 0 — the claim fails for negative radii. -/
theorem C5_counterexample :
    get_hex_centers emptyEnv 0 0 (-1) 8
        = .ok ([((0 : ℤ), (0 : ℤ))], -1) ∧
      (-1 : ℤ) < 0 := by
  constructor
  · rw [get_hex_centers_some emptyEnv 0 0 (-1) 8 rfl, floor_neg_one_div]
    rfl
  · norm_num

/-- C8 counterexample: on a run reaching the flush (here: interrupted),
the flush writes are exactly the direct truncate-and-dump of the two
final snapshot paths; no operation is a rename, so nothing is written
to a temporary location and renamed atomically. -/
theorem C8_counterexample :
    (main_run emptyEnv (some (0, 0)) true 8 1000 [] []
          "94402_resolution8_radius1000").1
        = flush_ops "94402_resolution8_radius1000" ∧
      (flush_ops "94402_resolution8_radius1000").any FsOp.isRename
        = false ∧
      (flush_ops "94402_resolution8_radius1000").length = 4 :=
  ⟨rfl, rfl, rfl⟩

/-- C8 (amended): the flush overwrites each snapshot in place — every
run's write operations are either empty (geocode failure) or exactly
`flush_ops`, which truncate-and-rewrite the two final snapshot paths
and never perform a rename. -/
theorem C8_flush_overwrites_in_place_no_rename (env : Env F Cell Pl PId)
    (geocode_result : Option (F × F)) (interrupted : Bool)
    (start_resolution search_radius_m : ℤ)
    (place_store : List (PId × Pl)) (crawled_store : List (F × F))
    (filename_meta : String) :
    (main_run env geocode_result interrupted start_resolution
          search_radius_m place_store crawled_store filename_meta).1.any
        FsOp.isRename = false ∧
      ((main_run env geocode_result interrupted start_resolution
          search_radius_m place_store crawled_store filename_meta).1
          = [] ∨
        (main_run env geocode_result interrupted start_resolution
          search_radius_m place_store crawled_store filename_meta).1
          = flush_ops filename_meta) := by
  have hflush : (flush_ops filename_meta).any FsOp.isRename = false := by
    simp [flush_ops, FsOp.isRename]
  rcases geocode_result with _ | ⟨cl, cg⟩
  · exact ⟨rfl, Or.inl rfl⟩
  · simp only [main_run, geocode]
    cases interrupted
    · cases hres : search_radius env cl cg start_resolution
          search_radius_m ⟨place_store, crawled_store, []⟩ with
      | error e => simp [hres, hflush]
      | ok s => simp [hres, hflush]
    · simp [hflush]

/-- C9 counterexample: a geocoding failure raises before the
`try`/`finally`, so the process exits (code 1) without performing a
single flush write — contradicting "flush on every exit path". -/
theorem C9_counterexample :
    main_run emptyEnv none false 8 1000 [] []
        "94402_resolution8_radius1000" = ([], 1) := rfl

/-- C9 (amended): once geocoding has succeeded, the flush of both
snapshots runs on every exit path — normal completion, caught
interruption, and fatal errors raised inside the crawl (such as an
unsupported resolution) — but a geocoding failure exits without any
flush, since it occurs before the `try`/`finally` block. -/
theorem C9_flush_after_geocode_only (env : Env F Cell Pl PId)
    (c : F × F) (interrupted : Bool)
    (start_resolution search_radius_m : ℤ)
    (place_store : List (PId × Pl)) (crawled_store : List (F × F))
    (filename_meta : String) :
    (main_run env (some c) interrupted start_resolution search_radius_m
        place_store crawled_store filename_meta).1
      = flush_ops filename_meta ∧
      (main_run env none interrupted start_resolution search_radius_m
        place_store crawled_store filename_meta).1 = [] := by
  constructor
  · obtain ⟨cl, cg⟩ := c
    simp only [main_run, geocode]
    cases interrupted
    · cases hres : search_radius env cl cg start_resolution
          search_radius_m ⟨place_store, crawled_store, []⟩ with
      | error e => simp [hres]
      | ok s => simp [hres]
    · simp
  · rfl

end Claims3
